import Mathlib

/-!
Verification of the luminous-money ts-types schema library.

The repository is a collection of TypeScript type declarations (namespaces
`Core` and `Banking`, in several versioned snapshots) with no executable
code.  The split resolver, matching-rule scorer and recurrence expander are
described only in the documentation comments on those types and in the
specification; they are modelled here from the words of the spec.  The type
declarations themselves (resource unions, field lists, literal
discriminators, message-queue envelopes) are transcribed from the source.
-/

set_option maxRecDepth 4000

/-! ## Split templates (src/src/Core.ts `SplitTemplate`, src/unnamed/part_004 lines 86-104) -/

/-- The `value` field of a `SplitTemplate`: `number | "rest"`. -/
inductive SplitValue where
  | num (v : Int)
  | rest
deriving DecidableEq

/-- The `unit` field of a `SplitTemplate`: `"%" | "$"`. -/
inductive SplitUnit where
  | percent
  | dollars
deriving DecidableEq

/-- A split template, from `SplitTemplate` in src/src/Core.ts (most recent shape,
src/unnamed/part_004 lines 92-104): a virtual account id, a value that is either a
number or the sentinel `"rest"`, and a unit that is `"%"` or `"$"`. -/
structure SplitTemplate where
  virtualAccountId : String
  value : SplitValue
  unit : SplitUnit
deriving DecidableEq

/-- The side of a split: `"credit" | "debit"`. -/
inductive Side where
  | credit
  | debit
deriving DecidableEq

/-- A resolved split: the concrete amount (in base units) and side produced for
one template by the split resolver. -/
structure ResolvedSplit where
  virtualAccountId : String
  amountBaseUnits : Int
  side : Side
deriving DecidableEq

/-- Modelled from the spec: the error taxonomy of section 7; the split resolver
"fails with `ValidationError` when: percentage splits exceed 100% of one side,
fixed splits exceed the total, or no `rest` split exists to absorb a non-zero
leftover". -/
inductive ValidationError where
  | percentOverflow
  | fixedOverflow
  | unallocatedRemainder
deriving DecidableEq

/-- Modelled from the spec: `round(x / 100)` for the percentage-split formula
`amount = round(total * value / 100)`.  The spec does not fix the behaviour of
`round` on .5, so halves round away from zero (sign-symmetric, agreeing with
round-half-up on the non-negative inputs of the documented examples). -/
def roundDiv100 (x : Int) : Int :=
  if 0 ≤ x then (x + 50).fdiv 100 else -((-x + 50).fdiv 100)

/-- Modelled from the spec: the side of every resolved split is determined by the
sign of the transaction amount.  Source doc comment on `SplitTemplate`
(src/unnamed/part_004 lines 87-90): "If the amount is negative, the splits are
created as debit splits; if the amount is positive, they are created as credit
splits." -/
def sideOfAmount (total : Int) : Side :=
  if total < 0 then Side.debit else Side.credit

/-- Modelled from the spec: the amount of one non-`rest` template.  Percentage
splits: `amount = round(total * value / 100)`.  Fixed splits: `amount = value`
directly in base units (the supplied value is by convention sign-matched to the
total). -/
def nonRestAmount (total : Int) (u : SplitUnit) (v : Int) : Int :=
  match u with
  | SplitUnit.percent => roundDiv100 (total * v)
  | SplitUnit.dollars => v

/-- Sum of the `value` fields of the percentage splits of a template list. -/
def pctValueSum : List SplitTemplate → Int
  | [] => 0
  | t :: ts =>
    (match t.value, t.unit with
     | SplitValue.num v, SplitUnit.percent => v
     | _, _ => 0) + pctValueSum ts

/-- Sum of the `value` fields of the fixed (`"$"`) splits of a template list. -/
def fixedValueSum : List SplitTemplate → Int
  | [] => 0
  | t :: ts =>
    (match t.value, t.unit with
     | SplitValue.num v, SplitUnit.dollars => v
     | _, _ => 0) + fixedValueSum ts

/-- Number of `rest` splits in a template list. -/
def restCount : List SplitTemplate → Nat
  | [] => 0
  | t :: ts =>
    (match t.value with
     | SplitValue.rest => 1
     | _ => 0) + restCount ts

/-- Sum of the computed amounts of all non-`rest` splits of a template list. -/
def nonRestSum (total : Int) : List SplitTemplate → Int
  | [] => 0
  | t :: ts =>
    (match t.value with
     | SplitValue.num v => nonRestAmount total t.unit v
     | SplitValue.rest => 0) + nonRestSum total ts

/-- Modelled from the spec: the leftover remaining after percentage and fixed
splits are computed; `rest` splits "collect all remaining amount after
percentage/fixed splits are computed". -/
def leftover (total : Int) (tpls : List SplitTemplate) : Int :=
  total - nonRestSum total tpls

/-- Modelled from the spec: assign concrete amounts to a template list, in
order.  Non-`rest` templates get their computed amount; each `rest` split gets
the even share `q` of the leftover, with the rounding remainder `r` assigned to
the first `rest` split (`flag` records whether the first `rest` split has
already been seen). -/
def assignAmounts (total q r : Int) : List SplitTemplate → Bool → List ResolvedSplit
  | [], _ => []
  | t :: ts, flag =>
    match t.value with
    | SplitValue.num v =>
      { virtualAccountId := t.virtualAccountId
        amountBaseUnits := nonRestAmount total t.unit v
        side := sideOfAmount total } :: assignAmounts total q r ts flag
    | SplitValue.rest =>
      { virtualAccountId := t.virtualAccountId
        amountBaseUnits := if flag then q else q + r
        side := sideOfAmount total } :: assignAmounts total q r ts true

/-- Modelled from the spec, section 4.1 (Split Resolver): given a signed integer
total (base units) and an ordered list of split templates, compute concrete
per-split amounts summing exactly to the transaction total, or fail with a
`ValidationError` when percentage splits exceed 100% of one side, fixed splits
exceed the total (in magnitude), or no `rest` split exists to absorb a non-zero
leftover.  The leftover is divided evenly among the `rest` splits, with the
rounding remainder assigned to the first `rest` split. -/
def resolveSplits (total : Int) (tpls : List SplitTemplate) :
    Except ValidationError (List ResolvedSplit) :=
  if 100 < pctValueSum tpls then Except.error ValidationError.percentOverflow
  else if total.natAbs < (fixedValueSum tpls).natAbs then
    Except.error ValidationError.fixedOverflow
  else if restCount tpls = 0 ∧ leftover total tpls ≠ 0 then
    Except.error ValidationError.unallocatedRemainder
  else
    let k : Int := (restCount tpls : Int)
    let L : Int := leftover total tpls
    let q : Int := if restCount tpls = 0 then 0 else L.fdiv k
    let r : Int := L - k * q
    Except.ok (assignAmounts total q r tpls false)

/-- Sum of the amounts of a list of resolved splits. -/
def sumAmounts (l : List ResolvedSplit) : Int :=
  (l.map ResolvedSplit.amountBaseUnits).sum

example :
    resolveSplits 10000
      [⟨"a", SplitValue.num 60, SplitUnit.percent⟩, ⟨"b", SplitValue.rest, SplitUnit.percent⟩] =
    Except.ok [⟨"a", 6000, Side.credit⟩, ⟨"b", 4000, Side.credit⟩] := rfl

example :
    resolveSplits 10000
      [⟨"a", SplitValue.num 60, SplitUnit.percent⟩, ⟨"b", SplitValue.num 40, SplitUnit.percent⟩] =
    Except.ok [⟨"a", 6000, Side.credit⟩, ⟨"b", 4000, Side.credit⟩] := rfl

example :
    resolveSplits 1
      [⟨"a", SplitValue.num 50, SplitUnit.percent⟩, ⟨"b", SplitValue.num 50, SplitUnit.percent⟩] =
    Except.error ValidationError.unallocatedRemainder := rfl

example :
    resolveSplits 100
      [⟨"a", SplitValue.num 200, SplitUnit.dollars⟩, ⟨"b", SplitValue.rest, SplitUnit.percent⟩] =
    Except.error ValidationError.fixedOverflow := rfl

example :
    resolveSplits (-10000)
      [⟨"a", SplitValue.num 60, SplitUnit.percent⟩, ⟨"b", SplitValue.rest, SplitUnit.percent⟩] =
    Except.ok [⟨"a", -6000, Side.debit⟩, ⟨"b", -4000, Side.debit⟩] := rfl

example :
    resolveSplits 10
      [⟨"a", SplitValue.rest, SplitUnit.percent⟩, ⟨"b", SplitValue.rest, SplitUnit.percent⟩,
       ⟨"c", SplitValue.rest, SplitUnit.percent⟩] =
    Except.ok [⟨"a", 4, Side.credit⟩, ⟨"b", 3, Side.credit⟩, ⟨"c", 3, Side.credit⟩] := rfl

/-! ## Split resolver lemmas -/

theorem sumAmounts_cons (s : ResolvedSplit) (l : List ResolvedSplit) :
    sumAmounts (s :: l) = s.amountBaseUnits + sumAmounts l := by
  simp [sumAmounts]

/-- The total assigned by `assignAmounts`: the non-`rest` amounts plus one even
share `q` per `rest` split, plus the remainder `r` if a first `rest` split is
still to come. -/
theorem assignAmounts_sum (total q r : Int) :
    ∀ (ts : List SplitTemplate) (flag : Bool),
      sumAmounts (assignAmounts total q r ts flag) =
        nonRestSum total ts + (restCount ts : Int) * q +
          (if restCount ts = 0 then 0 else if flag then 0 else r)
  | [], flag => by simp [assignAmounts, sumAmounts, nonRestSum, restCount]
  | t :: ts, flag => by
    cases hv : t.value with
    | num v =>
      have ih := assignAmounts_sum total q r ts flag
      simp only [assignAmounts, hv, sumAmounts_cons, ih, nonRestSum, restCount, Nat.zero_add]
      ring
    | rest =>
      have ih := assignAmounts_sum total q r ts true
      simp only [assignAmounts, hv, sumAmounts_cons, ih, nonRestSum, restCount]
      have hne : 1 + restCount ts ≠ 0 := by omega
      rw [if_neg hne]
      cases flag with
      | true =>
        simp only [if_true, ite_self]
        push_cast
        ring
      | false =>
        simp only [Bool.false_eq_true, if_false, ite_self]
        push_cast
        ring_nf
        simp [ite_self]

/-- C1 (amended): for every signed integer total `T` and every ordered template
list containing at least one `rest` split, whose percentage splits sum to at
most 100% and whose fixed splits do not exceed the total in magnitude, the
split resolver succeeds and the resulting per-split amounts sum exactly to `T`,
using only integer arithmetic. -/
theorem resolveSplits_sums_to_total (total : Int) (tpls : List SplitTemplate)
    (hrest : 0 < restCount tpls) (hpct : pctValueSum tpls ≤ 100)
    (hfix : (fixedValueSum tpls).natAbs ≤ total.natAbs) :
    ∃ splits, resolveSplits total tpls = Except.ok splits ∧ sumAmounts splits = total := by
  have h1 : ¬ 100 < pctValueSum tpls := not_lt.mpr hpct
  have h2 : ¬ total.natAbs < (fixedValueSum tpls).natAbs := not_lt.mpr hfix
  have hne : restCount tpls ≠ 0 := by omega
  have h3 : ¬ (restCount tpls = 0 ∧ leftover total tpls ≠ 0) := fun h => hne h.1
  refine ⟨assignAmounts total ((leftover total tpls).fdiv (restCount tpls : Int))
      (leftover total tpls -
        (restCount tpls : Int) * ((leftover total tpls).fdiv (restCount tpls : Int)))
      tpls false, ?_, ?_⟩
  · simp [resolveSplits, h1, h2, h3, hne]
  · rw [assignAmounts_sum, if_neg hne]
    simp only [Bool.false_eq_true, if_false]
    unfold leftover
    ring

theorem resolveSplits_sums_to_total_witness :
    0 < restCount
        [⟨"a", SplitValue.num 60, SplitUnit.percent⟩, ⟨"b", SplitValue.rest, SplitUnit.percent⟩] ∧
    ∃ splits,
      resolveSplits 10000
          [⟨"a", SplitValue.num 60, SplitUnit.percent⟩,
           ⟨"b", SplitValue.rest, SplitUnit.percent⟩] = Except.ok splits ∧
      sumAmounts splits = 10000 :=
  ⟨by decide,
   resolveSplits_sums_to_total 10000
     [⟨"a", SplitValue.num 60, SplitUnit.percent⟩, ⟨"b", SplitValue.rest, SplitUnit.percent⟩]
     (by decide) (by decide) (by decide)⟩

/-- C1 counterexample: a template list with one `rest` split and percentage
splits summing to 0% (hence at most 100%), but with a fixed split of 200 base
units against a total of 100: the resolver does not succeed — it fails with the
fixed-splits-exceed-the-total `ValidationError`. -/
theorem resolveSplits_fixedOverflow_cex :
    resolveSplits 100
        [⟨"a", SplitValue.num 200, SplitUnit.dollars⟩, ⟨"b", SplitValue.rest, SplitUnit.percent⟩]
      = Except.error ValidationError.fixedOverflow ∧
    restCount
        [⟨"a", SplitValue.num 200, SplitUnit.dollars⟩, ⟨"b", SplitValue.rest, SplitUnit.percent⟩]
      = 1 ∧
    pctValueSum
        [⟨"a", SplitValue.num 200, SplitUnit.dollars⟩, ⟨"b", SplitValue.rest, SplitUnit.percent⟩]
      = 0 :=
  ⟨rfl, rfl, rfl⟩

/-- C4 (amended): the split resolver fails with a `ValidationError` exactly when
the percentage splits sum to more than 100%, the fixed splits exceed the total
in magnitude, or no `rest` split exists and the computed per-split amounts
leave a non-zero leftover; percentage splits summing to exactly 100% with no
`rest` split succeed when the rounded amounts leave zero leftover, as in the
documented example T=10000, [60%, 40%]. -/
theorem resolveSplits_error_iff :
    (∀ (total : Int) (tpls : List SplitTemplate),
        (∃ e, resolveSplits total tpls = Except.error e) ↔
          (100 < pctValueSum tpls ∨ total.natAbs < (fixedValueSum tpls).natAbs ∨
            (restCount tpls = 0 ∧ leftover total tpls ≠ 0))) ∧
    resolveSplits 10000
        [⟨"a", SplitValue.num 60, SplitUnit.percent⟩, ⟨"b", SplitValue.num 40, SplitUnit.percent⟩]
      = Except.ok [⟨"a", 6000, Side.credit⟩, ⟨"b", 4000, Side.credit⟩] := by
  constructor
  · intro total tpls
    rw [resolveSplits]
    split_ifs with h1 h2 h3
    · simp [h1]
    · simp [h1, h2]
    · simp [h1, h2, h3]
    · simp [h1, h2, h3]
  · rfl

/-- C4 counterexample: percentage splits summing to exactly 100% with no `rest`
split do not always succeed: for total 1 with splits [50%, 50%], each half
rounds to 1 base unit, the leftover is −1, and the resolver fails with a
`ValidationError`. -/
theorem resolveSplits_exact100_cex :
    pctValueSum
        [⟨"a", SplitValue.num 50, SplitUnit.percent⟩, ⟨"b", SplitValue.num 50, SplitUnit.percent⟩]
      = 100 ∧
    restCount
        [⟨"a", SplitValue.num 50, SplitUnit.percent⟩, ⟨"b", SplitValue.num 50, SplitUnit.percent⟩]
      = 0 ∧
    resolveSplits 1
        [⟨"a", SplitValue.num 50, SplitUnit.percent⟩, ⟨"b", SplitValue.num 50, SplitUnit.percent⟩]
      = Except.error ValidationError.unallocatedRemainder :=
  ⟨rfl, rfl, rfl⟩

/-- Pointwise description of `assignAmounts`: it preserves length and order,
each non-`rest` template yields its computed amount, and every resolved split
carries the side determined by the sign of the total. -/
theorem assignAmounts_get (total q r : Int) :
    ∀ (ts : List SplitTemplate) (flag : Bool),
      (assignAmounts total q r ts flag).length = ts.length ∧
      ∀ i (hi : i < ts.length) (hs : i < (assignAmounts total q r ts flag).length),
        (∀ v, (ts.get ⟨i, hi⟩).value = SplitValue.num v →
            ((assignAmounts total q r ts flag).get ⟨i, hs⟩).amountBaseUnits
              = nonRestAmount total (ts.get ⟨i, hi⟩).unit v) ∧
        ((assignAmounts total q r ts flag).get ⟨i, hs⟩).side = sideOfAmount total
  | [], flag => by
    refine ⟨rfl, ?_⟩
    intro i hi
    exact absurd hi (by simp)
  | t :: ts, flag => by
    obtain ⟨tid, tval, tunit⟩ := t
    cases tval with
    | num v0 =>
      have ih := assignAmounts_get total q r ts flag
      refine ⟨?_, ?_⟩
      · simp only [assignAmounts, List.length_cons, ih.1]
      · intro i hi hs
        cases i with
        | zero =>
          refine ⟨?_, rfl⟩
          intro v hval
          cases (show SplitValue.num v0 = SplitValue.num v from hval)
          rfl
        | succ j =>
          have hi2 : j < ts.length := by simpa using hi
          have hs2 : j < (assignAmounts total q r ts flag).length := by
            simp only [assignAmounts, List.length_cons] at hs
            omega
          refine ⟨?_, ?_⟩
          · intro v hval
            have h := (ih.2 j hi2 hs2).1 v (by simpa only [List.get_cons_succ] using hval)
            simpa only [assignAmounts, List.get_cons_succ] using h
          · simpa only [assignAmounts, List.get_cons_succ] using (ih.2 j hi2 hs2).2
    | rest =>
      have ih := assignAmounts_get total q r ts true
      refine ⟨?_, ?_⟩
      · simp only [assignAmounts, List.length_cons, ih.1]
      · intro i hi hs
        cases i with
        | zero =>
          refine ⟨?_, rfl⟩
          intro v hval
          exact absurd (show SplitValue.rest = SplitValue.num v from hval) (by simp)
        | succ j =>
          have hi2 : j < ts.length := by simpa using hi
          have hs2 : j < (assignAmounts total q r ts true).length := by
            simp only [assignAmounts, List.length_cons] at hs
            omega
          refine ⟨?_, ?_⟩
          · intro v hval
            have h := (ih.2 j hi2 hs2).1 v (by simpa only [List.get_cons_succ] using hval)
            simpa only [assignAmounts, List.get_cons_succ] using h
          · simpa only [assignAmounts, List.get_cons_succ] using (ih.2 j hi2 hs2).2

/-- C6: for every split template resolved against a total `T`, a percentage
split amount equals `round(T * value / 100)`, a fixed split amount
equals its value directly in base units, and the side of every resulting split is
determined solely by the sign of `T`: a negative total produces debit splits
and a positive total produces credit splits. -/
theorem resolveSplits_amounts_and_sides (total : Int) (tpls : List SplitTemplate)
    (splits : List ResolvedSplit) (h : resolveSplits total tpls = Except.ok splits) :
    splits.length = tpls.length ∧
    ∀ i (hi : i < tpls.length) (hs : i < splits.length),
      (∀ v, (tpls.get ⟨i, hi⟩).value = SplitValue.num v →
          ((tpls.get ⟨i, hi⟩).unit = SplitUnit.percent →
              (splits.get ⟨i, hs⟩).amountBaseUnits = roundDiv100 (total * v)) ∧
          ((tpls.get ⟨i, hi⟩).unit = SplitUnit.dollars →
              (splits.get ⟨i, hs⟩).amountBaseUnits = v)) ∧
      (total < 0 → (splits.get ⟨i, hs⟩).side = Side.debit) ∧
      (0 < total → (splits.get ⟨i, hs⟩).side = Side.credit) := by
  rw [resolveSplits] at h
  split_ifs at h
  all_goals
    simp only [Except.ok.injEq] at h
    subst h
    refine ⟨(assignAmounts_get total _ _ tpls false).1, ?_⟩
    intro i hi hs
    obtain ⟨hamt, hside⟩ := (assignAmounts_get total _ _ tpls false).2 i hi hs
    refine ⟨?_, ?_, ?_⟩
    · intro v hval
      have h2 := hamt v hval
      exact ⟨fun hu => by rw [h2, hu]; rfl, fun hu => by rw [h2, hu]; rfl⟩
    · intro hneg
      rw [hside]
      unfold sideOfAmount
      rw [if_pos hneg]
    · intro hpos
      rw [hside]
      unfold sideOfAmount
      rw [if_neg (by omega)]

theorem resolveSplits_amounts_and_sides_witness :
    [ResolvedSplit.mk "a" 6000 Side.credit, ResolvedSplit.mk "b" 4000 Side.credit].length =
      [SplitTemplate.mk "a" (SplitValue.num 60) SplitUnit.percent,
       SplitTemplate.mk "b" SplitValue.rest SplitUnit.percent].length :=
  (resolveSplits_amounts_and_sides 10000
    [SplitTemplate.mk "a" (SplitValue.num 60) SplitUnit.percent,
     SplitTemplate.mk "b" SplitValue.rest SplitUnit.percent]
    [ResolvedSplit.mk "a" 6000 Side.credit, ResolvedSplit.mk "b" 4000 Side.credit] rfl).1

/-! ## Matching clauses (src/unnamed/part_004 lines 3-49, src/src/Core.ts lines 3-30) -/

/-- The `date` clause: `{ t: "proximal-date"; centerMs; radiusDays } |
{ t: "date-range"; from; to }` (src/unnamed/part_004 lines 20-30). -/
inductive DateClause where
  | proximalDate (centerMs : Int) (radiusDays : Int)
  | dateRange (rangeFrom : Int) (rangeTo : Int)
deriving DecidableEq

/-- The `desc` clause: `{ term: string; regexp: boolean }`. -/
structure DescClause where
  term : String
  regexp : Bool
deriving DecidableEq

/-- The `price` clause: `{ centerBaseUnits: number; radiusBaseUnits: number }`. -/
structure PriceClause where
  centerBaseUnits : Int
  radiusBaseUnits : Int
deriving DecidableEq

/-- Matching clauses, from `MatchingClauses` in src/unnamed/part_004 lines 9-49: four optional
clauses; `side` and `date` are disqualifying, `desc` and `price` are
non-disqualifying. -/
structure MatchingClauses where
  side : Option Side
  date : Option DateClause
  desc : Option DescClause
  price : Option PriceClause
deriving DecidableEq

/-- A candidate transaction, carrying the attribute fields the scorer reads
(from `Attributes.Transaction` in src/src/Core.ts). -/
structure TxCandidate where
  description : String
  timestampMs : Int
  amountBaseUnits : Int
deriving DecidableEq

/-- Milliseconds per day, for the proximal-date radius. -/
def msPerDay : Int := 86400000

/-- Modelled from the spec: the `date` disqualifying clause passes iff the
transaction timestamp falls inside the absolute range `from..to` or within
`centerMs` plus or minus `radiusDays` (converted to milliseconds). -/
def datePassesB : DateClause → Int → Bool
  | DateClause.proximalDate centerMs radiusDays, ts =>
    decide (|ts - centerMs| ≤ radiusDays * msPerDay)
  | DateClause.dateRange rangeFrom rangeTo, ts =>
    decide (rangeFrom ≤ ts ∧ ts ≤ rangeTo)

/-- Modelled from the spec: the `desc` clause matches exactly when
`regexp` is false; the source gives no regular-expression semantics, so the
`regexp` case is modelled as substring containment (no claim depends on it). -/
def descMatchesB (d : DescClause) (description : String) : Bool :=
  if d.regexp then decide (d.term.toList <:+: description.toList)
  else d.term == description

/-- Modelled from the spec: the binary `desc` sub-score, 0 or 100. -/
def descSubScore (d : DescClause) (description : String) : ℚ :=
  if descMatchesB d description then 100 else 0

/-- Modelled from the spec: the `price` sub-score is a linear proximity score
based on distance from `centerBaseUnits` within `radiusBaseUnits`: 100 at
center, 0 at or beyond the radius, linear interpolation between. -/
def priceSubScore (p : PriceClause) (amount : Int) : ℚ :=
  if (p.radiusBaseUnits : ℚ) ≤ |(amount : ℚ) - (p.centerBaseUnits : ℚ)| then 0
  else
    100 * ((p.radiusBaseUnits : ℚ) - |(amount : ℚ) - (p.centerBaseUnits : ℚ)|)
      / (p.radiusBaseUnits : ℚ)

/-- Modelled from the spec: a rule is disqualified when a present `side` clause
does not match the side determined by the sign of the transaction amount, or a
present `date` clause does not pass. -/
def disqualifiedB (c : MatchingClauses) (tx : TxCandidate) : Bool :=
  (match c.side with
   | some s => !(sideOfAmount tx.amountBaseUnits == s)
   | none => false) ||
  (match c.date with
   | some d => !(datePassesB d tx.timestampMs)
   | none => false)

/-- The number of present non-disqualifying (`desc`, `price`) clauses. -/
def presentCount (c : MatchingClauses) : Nat :=
  (match c.desc with | some _ => 1 | none => 0) +
  (match c.price with | some _ => 1 | none => 0)

/-- The sum of the present non-disqualifying clause sub-scores. -/
def subScoreSum (c : MatchingClauses) (tx : TxCandidate) : ℚ :=
  (match c.desc with | some d => descSubScore d tx.description | none => 0) +
  (match c.price with | some p => priceSubScore p tx.amountBaseUnits | none => 0)

/-- Modelled from the spec, section 4.2 (Matching-Rule Scorer): a disqualified
rule scores 0; a rule with zero present non-disqualifying clauses scores 100
when all disqualifying clauses pass; otherwise the score is the sum of the
present non-disqualifying sub-scores divided by 100 times their count, times
100. -/
def matchScore (c : MatchingClauses) (tx : TxCandidate) : ℚ :=
  if disqualifiedB c tx then 0
  else if presentCount c = 0 then 100
  else subScoreSum c tx / (100 * (presentCount c : ℚ)) * 100

example : matchScore ⟨none, none, none, some ⟨1000, 500⟩⟩ ⟨"", 0, 1000⟩ = 100 := by
  norm_num [matchScore, disqualifiedB, presentCount, subScoreSum, priceSubScore]

example : matchScore ⟨none, none, none, some ⟨1000, 500⟩⟩ ⟨"", 0, 1500⟩ = 0 := by
  norm_num [matchScore, disqualifiedB, presentCount, subScoreSum, priceSubScore]

example : matchScore ⟨none, none, none, some ⟨1000, 500⟩⟩ ⟨"", 0, 1250⟩ = 50 := by
  norm_num [matchScore, disqualifiedB, presentCount, subScoreSum, priceSubScore]

example :
    matchScore ⟨none, some (DateClause.dateRange 0 10), some ⟨"food", false⟩, none⟩
      ⟨"food", 100, 5⟩ = 0 := by
  norm_num [matchScore, disqualifiedB, datePassesB]

example : matchScore ⟨none, none, none, none⟩ ⟨"", 0, 0⟩ = 100 := by
  norm_num [matchScore, disqualifiedB, presentCount]

/-! ## Matching-rule scorer lemmas -/

theorem descSubScore_mem (d : DescClause) (s : String) :
    0 ≤ descSubScore d s ∧ descSubScore d s ≤ 100 := by
  unfold descSubScore
  split <;> norm_num

theorem priceSubScore_mem (p : PriceClause) (a : Int) :
    0 ≤ priceSubScore p a ∧ priceSubScore p a ≤ 100 := by
  unfold priceSubScore
  split
  · norm_num
  · rename_i h
    push_neg at h
    have habs : (0 : ℚ) ≤ |(a : ℚ) - (p.centerBaseUnits : ℚ)| := abs_nonneg _
    have hrpos : (0 : ℚ) < (p.radiusBaseUnits : ℚ) := lt_of_le_of_lt habs h
    constructor
    · exact div_nonneg (by nlinarith) hrpos.le
    · rw [div_le_iff₀ hrpos]
      nlinarith

theorem subScoreSum_mem (c : MatchingClauses) (tx : TxCandidate) :
    0 ≤ subScoreSum c tx ∧ subScoreSum c tx ≤ 100 * (presentCount c : ℚ) := by
  unfold subScoreSum presentCount
  rcases hdesc : c.desc with _ | d <;> rcases hprice : c.price with _ | p <;>
    simp only []
  · norm_num
  · have h2 := priceSubScore_mem p tx.amountBaseUnits
    push_cast
    constructor <;> linarith
  · have h1 := descSubScore_mem d tx.description
    push_cast
    constructor <;> linarith
  · have h1 := descSubScore_mem d tx.description
    have h2 := priceSubScore_mem p tx.amountBaseUnits
    push_cast
    constructor <;> linarith

/-- C2 (amended): for every matching rule that passes all present disqualifying
clauses, the final match score equals (sum of the present non-disqualifying
clause sub-scores) / (100 × count of present non-disqualifying clauses) × 100;
the score always lies in the range 0 to 100; and when zero non-disqualifying
clauses are present the score is 100 if all disqualifying clauses pass and 0
otherwise. -/
theorem matchScore_formula (c : MatchingClauses) (tx : TxCandidate) :
    (disqualifiedB c tx = false →
        matchScore c tx =
          (if presentCount c = 0 then (100 : ℚ)
           else subScoreSum c tx / (100 * (presentCount c : ℚ)) * 100)) ∧
    0 ≤ matchScore c tx ∧ matchScore c tx ≤ 100 ∧
    (presentCount c = 0 →
        matchScore c tx = (if disqualifiedB c tx = true then 0 else 100)) := by
  have hb := subScoreSum_mem c tx
  have hbounds : 0 ≤ matchScore c tx ∧ matchScore c tx ≤ 100 := by
    unfold matchScore
    split_ifs with h1 h2
    · norm_num
    · norm_num
    · have hn : 1 ≤ presentCount c := Nat.one_le_iff_ne_zero.mpr h2
      have hnq : (1 : ℚ) ≤ (presentCount c : ℚ) := by exact_mod_cast hn
      have h100n : (0 : ℚ) < 100 * (presentCount c : ℚ) := by nlinarith
      constructor
      · exact mul_nonneg (div_nonneg hb.1 h100n.le) (by norm_num)
      · rw [div_mul_eq_mul_div, div_le_iff₀ h100n]
        nlinarith [hb.2]
  refine ⟨?_, hbounds.1, hbounds.2, ?_⟩
  · intro hnd
    simp [matchScore, hnd]
  · intro h0
    simp [matchScore, h0]

theorem matchScore_formula_witness :
    matchScore ⟨none, none, some ⟨"rent", false⟩, none⟩ ⟨"rent", 0, 5⟩ =
      subScoreSum ⟨none, none, some ⟨"rent", false⟩, none⟩ ⟨"rent", 0, 5⟩ /
        (100 * (presentCount ⟨none, none, some ⟨"rent", false⟩, none⟩ : ℚ)) * 100 := by
  have h := (matchScore_formula ⟨none, none, some ⟨"rent", false⟩, none⟩ ⟨"rent", 0, 5⟩).1 rfl
  simpa using h

/-- C2 counterexample: a rule whose `date` clause excludes the transaction
timestamp but whose `desc` clause matches scores 0, while the claimed formula
evaluates to 100: the formula does not describe the score of every rule and
candidate. -/
theorem matchScore_formula_cex :
    matchScore ⟨none, some (DateClause.dateRange 0 10), some ⟨"food", false⟩, none⟩
        ⟨"food", 100, 5⟩ = 0 ∧
    subScoreSum ⟨none, some (DateClause.dateRange 0 10), some ⟨"food", false⟩, none⟩
        ⟨"food", 100, 5⟩ /
      (100 * (presentCount ⟨none, some (DateClause.dateRange 0 10), some ⟨"food", false⟩, none⟩ :
          ℚ)) * 100 = 100 ∧
    (0 : ℚ) ≠ 100 := by
  refine ⟨?_, ?_, by norm_num⟩
  · norm_num [matchScore, disqualifiedB, datePassesB]
  · norm_num [subScoreSum, presentCount, descSubScore, descMatchesB]

/-- C3: for every matching rule in which a `side` or `date` clause is present
and the candidate transaction fails that clause, the scorer returns exactly 0,
regardless of how well any `desc` or `price` clause matches. -/
theorem matchScore_disqualifying (c : MatchingClauses) (tx : TxCandidate)
    (h : (∃ s, c.side = some s ∧ sideOfAmount tx.amountBaseUnits ≠ s) ∨
         (∃ d, c.date = some d ∧ datePassesB d tx.timestampMs = false)) :
    matchScore c tx = 0 := by
  have hd : disqualifiedB c tx = true := by
    unfold disqualifiedB
    rcases h with ⟨s, hs, hne⟩ | ⟨d, hdate, hf⟩
    · rw [hs]
      simp [hne]
    · rw [hdate]
      simp [hf]
  simp [matchScore, hd]

/-- Witness for C3: a disqualifying date range that excludes the timestamp
forces score 0 even though the `desc` clause matches exactly. -/
theorem matchScore_disqualifying_witness :
    matchScore ⟨none, some (DateClause.dateRange 0 10), some ⟨"rent", false⟩, none⟩
      ⟨"rent", 100, 5⟩ = 0 :=
  matchScore_disqualifying _ _ (Or.inr ⟨DateClause.dateRange 0 10, rfl, rfl⟩)

/-- C5 (amended): for every matching rule containing only a `price` clause with
positive `radiusBaseUnits`, the score is a linear function of the distance
between the transaction amount and `centerBaseUnits`: 100 when the amount
equals the center, 0 when the distance is at or beyond `radiusBaseUnits`, and
linearly interpolated in between. -/
theorem matchScore_price_linear (p : PriceClause) (tx : TxCandidate)
    (hr : 0 < p.radiusBaseUnits) :
    (tx.amountBaseUnits = p.centerBaseUnits →
        matchScore ⟨none, none, none, some p⟩ tx = 100) ∧
    ((p.radiusBaseUnits : ℚ) ≤ |(tx.amountBaseUnits : ℚ) - (p.centerBaseUnits : ℚ)| →
        matchScore ⟨none, none, none, some p⟩ tx = 0) ∧
    (|(tx.amountBaseUnits : ℚ) - (p.centerBaseUnits : ℚ)| < (p.radiusBaseUnits : ℚ) →
        matchScore ⟨none, none, none, some p⟩ tx =
          100 * ((p.radiusBaseUnits : ℚ) - |(tx.amountBaseUnits : ℚ) - (p.centerBaseUnits : ℚ)|)
            / (p.radiusBaseUnits : ℚ)) := by
  have hrq : (0 : ℚ) < (p.radiusBaseUnits : ℚ) := by exact_mod_cast hr
  have hm : matchScore ⟨none, none, none, some p⟩ tx = priceSubScore p tx.amountBaseUnits := by
    simp only [matchScore, disqualifiedB, presentCount, subScoreSum]
    norm_num
  refine ⟨?_, ?_, ?_⟩
  · intro hc
    rw [hm]
    unfold priceSubScore
    rw [hc]
    rw [if_neg (by simpa using hrq)]
    field_simp
  · intro hge
    rw [hm]
    unfold priceSubScore
    rw [if_pos hge]
  · intro hlt
    rw [hm]
    unfold priceSubScore
    rw [if_neg (not_le.mpr hlt)]

theorem matchScore_price_linear_witness :
    matchScore ⟨none, none, none, some ⟨1000, 500⟩⟩ ⟨"", 0, 1000⟩ = 100 ∧
    matchScore ⟨none, none, none, some ⟨1000, 500⟩⟩ ⟨"", 0, 1500⟩ = 0 ∧
    matchScore ⟨none, none, none, some ⟨1000, 500⟩⟩ ⟨"", 0, 1250⟩ = 50 := by
  refine ⟨(matchScore_price_linear ⟨1000, 500⟩ ⟨"", 0, 1000⟩ (by norm_num)).1 rfl,
          (matchScore_price_linear ⟨1000, 500⟩ ⟨"", 0, 1500⟩ (by norm_num)).2.1 (by norm_num), ?_⟩
  have h := (matchScore_price_linear ⟨1000, 500⟩ ⟨"", 0, 1250⟩ (by norm_num)).2.2 (by norm_num)
  rw [h]
  norm_num [abs_of_nonneg]

/-- C5 counterexample: with `radiusBaseUnits = 0` the claim is contradictory —
the amount equals the center, so the claim requires score 100, but the distance
(0) is also at or beyond the radius (0), so the claim requires score 0; the
scorer returns 0. -/
theorem matchScore_price_zeroRadius_cex :
    matchScore ⟨none, none, none, some ⟨1000, 0⟩⟩ ⟨"", 0, 1000⟩ = 0 ∧ (0 : ℚ) ≠ 100 := by
  constructor
  · norm_num [matchScore, disqualifiedB, presentCount, subScoreSum, priceSubScore]
  · norm_num

/-! ## Recurrences (src/unnamed/part_004 lines 127-186, src/src/Core.ts lines 87-146) -/

/-- Monthly recurrence, from `MonthlyRecurrence` in src/unnamed/part_004 lines 143-155: every `interval`
months, on the days of `dayList`; day numbers above the last day of the month
are coerced to the last day of the given month. -/
structure MonthlyRecurrence where
  interval : Nat
  dayList : List Nat
deriving DecidableEq

/-- Yearly recurrence, from `YearlyRecurrence` in src/unnamed/part_004 lines 157-183: recur in the
months of `monthList` (modelled as the list of selected month numbers, 1-12),
on the days of `dayList`; day numbers above the last day of the given month are
coerced to the last day of the given month. -/
structure YearlyRecurrence where
  monthList : List Nat
  dayList : List Nat
deriving DecidableEq

/-- Whether a year is a Gregorian leap year. -/
def isLeapYear (y : Nat) : Bool :=
  y % 4 == 0 && (y % 100 != 0 || y % 400 == 0)

/-- The number of days of month `m` (1-12) of year `y`. -/
def daysInMonth (y m : Nat) : Nat :=
  if m = 2 then (if isLeapYear y then 29 else 28)
  else if m = 4 ∨ m = 6 ∨ m = 9 ∨ m = 11 then 30
  else 31

/-- Modelled from the spec: a day-of-month entry above the actual day count of
the month clamps to the last day of that month. -/
def clampDay (y m d : Nat) : Nat :=
  min d (daysInMonth y m)

/-- Modelled from the spec, section 4.3 (Recurrence Expander): the days of
month `m` of year `y` on which a monthly recurrence produces occurrences — one
per `dayList` entry, clamped to the month. -/
def monthlyOccurrenceDays (rec : MonthlyRecurrence) (y m : Nat) : List Nat :=
  rec.dayList.map (clampDay y m)

/-- Modelled from the spec, section 4.3 (Recurrence Expander): the days of
month `m` of year `y` on which a yearly recurrence produces occurrences —
clamped `dayList` entries when `m` is a selected month, nothing otherwise. -/
def yearlyOccurrenceDays (rec : YearlyRecurrence) (y m : Nat) : List Nat :=
  if m ∈ rec.monthList then rec.dayList.map (clampDay y m) else []

example : monthlyOccurrenceDays ⟨1, [31]⟩ 2023 2 = [28] := rfl

example : yearlyOccurrenceDays ⟨[2], [31]⟩ 2024 2 = [29] := rfl

/-- C7: for every monthly or yearly recurrence whose `dayList` contains a day
number greater than the number of days of the month being expanded, the
expander coerces that day to the last day of that month, so the last day of
the month is among the produced occurrence days. -/
theorem recurrence_clamps_to_last_day (y m d : Nat)
    (mo : MonthlyRecurrence) (yr : YearlyRecurrence)
    (hdm : d ∈ mo.dayList) (hgt : daysInMonth y m < d)
    (hdy : d ∈ yr.dayList) (hsel : m ∈ yr.monthList) :
    clampDay y m d = daysInMonth y m ∧
    daysInMonth y m ∈ monthlyOccurrenceDays mo y m ∧
    daysInMonth y m ∈ yearlyOccurrenceDays yr y m := by
  have hc : clampDay y m d = daysInMonth y m := by
    unfold clampDay
    omega
  refine ⟨hc, ?_, ?_⟩
  · unfold monthlyOccurrenceDays
    exact List.mem_map.mpr ⟨d, hdm, hc⟩
  · unfold yearlyOccurrenceDays
    rw [if_pos hsel]
    exact List.mem_map.mpr ⟨d, hdy, hc⟩

/-- Witness for C7: a monthly recurrence with dayList [31] applied to February
2023 (28 days) produces an occurrence on February 28, the last day of the
month; likewise for a yearly recurrence selecting February. -/
theorem recurrence_clamps_to_last_day_witness :
    clampDay 2023 2 31 = daysInMonth 2023 2 ∧
    daysInMonth 2023 2 ∈ monthlyOccurrenceDays ⟨1, [31]⟩ 2023 2 ∧
    daysInMonth 2023 2 ∈ yearlyOccurrenceDays ⟨[2], [31]⟩ 2023 2 :=
  recurrence_clamps_to_last_day 2023 2 31 ⟨1, [31]⟩ ⟨[2], [31]⟩
    (by decide) (by decide) (by decide) (by decide)

/-! ## Message-queue envelopes (src/src/Banking.ts lines 47-64,
src/unnamed/part_001 lines 47-66) -/

/-- The full set of message-queue actions named by the spec:
`"created" | "updated" | "deleted"`. -/
inductive MqAction where
  | created
  | updated
  | deleted
deriving DecidableEq

/-- The `domain` literal of the banking envelopes: `"banking"`. -/
inductive MqDomain where
  | banking
deriving DecidableEq

/-- The `action` field type of `Mq.Import` in src/src/Banking.ts line 50: the
single literal `"created"`. -/
inductive MqImportAction where
  | created
deriving DecidableEq

/-- The inclusion of the action literals of `Mq.Import` into the full action set. -/
def MqImportAction.toMqAction : MqImportAction → MqAction
  | MqImportAction.created => MqAction.created

/-- The `src` field of a banking import: `"file" | "pull"` (src/src/Banking.ts line 10). -/
inductive BankImportSrc where
  | file
  | pull
deriving DecidableEq

/-- The `status` field of a banking transaction: `"cleared" | "pending"`. -/
inductive BankTxStatus where
  | cleared
  | pending
deriving DecidableEq

/-- The transactions nested in `Mq.Import.resource` (src/src/Banking.ts lines
55-61): `Attributes.Transaction` plus `id` and `uniqueHash` (the free-form
`meta: object` field carries no structure and is not modelled). -/
structure MqImportTransaction where
  status : BankTxStatus
  amountBaseUnits : Int
  balanceBaseUnits : Int
  description : String
  timestampMs : Int
  recordedMs : Int
  dayTxIndex : Int
  id : String
  uniqueHash : String
deriving DecidableEq

/-- The resource of `Mq.Import` (src/src/Banking.ts lines 51-62): `Attributes.Import`
plus `t: "imports"`, `id`, `accountId` and the nested transactions. -/
structure MqImportResource where
  src : BankImportSrc
  comment : Option String
  timestampMs : Int
  id : String
  accountId : String
  transactions : List MqImportTransaction
deriving DecidableEq

/-- The `Mq.Import` envelope (src/src/Banking.ts lines 48-63):
`{ domain: "banking"; action: "created"; resource: {...} }`. -/
structure MqImport where
  domain : MqDomain
  action : MqImportAction
  resource : MqImportResource
deriving DecidableEq

/-- The resource of `Mq.Transaction` (src/unnamed/part_001 lines 51-64): `t:
"transactions"` plus the flattened transaction attributes, `accountId` and
`importId` (the free-form `meta: object` field carries no structure and is not
modelled). -/
structure MqTransactionResource where
  id : String
  status : BankTxStatus
  amountBaseUnits : Int
  balanceBaseUnits : Int
  description : String
  timestampMs : Int
  recordedMs : Int
  dayTxIndex : Int
  accountId : String
  importId : String
deriving DecidableEq

/-- The `Mq.Transaction` envelope (src/unnamed/part_001 lines 48-65):
`{ domain: "banking"; action: "created" | "updated" | "deleted";
resource: {...} }`. -/
structure MqTransaction where
  domain : MqDomain
  action : MqAction
  resource : MqTransactionResource
deriving DecidableEq

/-- C8 counterexample: the `Mq.Import` envelope does not admit the action
`"updated"` — its `action` field type consists of the single literal
`"created"`. -/
theorem mqImport_no_updated_action :
    ¬ ∃ i : MqImportAction, MqImportAction.toMqAction i = MqAction.updated := by
  rintro ⟨i, h⟩
  cases i
  exact absurd h (by simp [MqImportAction.toMqAction])

/-- C8 (amended): every message-queue envelope in the `Mq` namespaces has the
shape `{ domain, action, resource }` with domain `"banking"`; the banking
transaction envelope admits all three actions `"created" | "updated" |
"deleted"`, but the banking import envelope admits only `"created"`. -/
theorem mq_envelope_actions :
    (∀ e : MqImport, e.domain = MqDomain.banking ∧
        MqImportAction.toMqAction e.action = MqAction.created) ∧
    (∀ e : MqTransaction, e.domain = MqDomain.banking) ∧
    (∀ a : MqAction, ∃ e : MqTransaction, e.action = a) := by
  refine ⟨?_, ?_, ?_⟩
  · intro e
    cases e with
    | mk dom act res =>
      cases dom
      cases act
      exact ⟨rfl, rfl⟩
  · intro e
    cases e.domain
    rfl
  · intro a
    exact ⟨⟨MqDomain.banking, a,
      ⟨"", BankTxStatus.cleared, 0, 0, "", 0, 0, 0, "", ""⟩⟩, rfl⟩

/-! ## The Api.Resource union of src/src/Core.ts (lines 242-338) -/

/-- The thirteen members of the `Api.Resource` union in src/src/Core.ts lines
325-338. -/
inductive CoreResource where
  | cashAccount
  | emailAddress
  | expectedTransaction
  | matchingRule
  | membership
  | message
  | messageThread
  | recurringTransaction
  | space
  | split
  | user
  | virtualAccount
  | transaction
deriving DecidableEq

/-- The field names of each `Api.Resource` variant in src/src/Core.ts: the
fields of its `Attributes` intersection operand followed by the Api-level
fields. -/
def coreResourceFields : CoreResource → List String
  | CoreResource.cashAccount =>
    ["type", "name", "currencyId", "accountNum", "balanceBaseUnits",
     "id", "bankingProviderId", "owner", "space"]
  | CoreResource.emailAddress => ["email", "verifiedMs", "type", "user"]
  | CoreResource.expectedTransaction =>
    ["status", "description", "amountBaseUnits", "timestampMs", "matchingRule",
     "id", "type", "cashAccount", "recurringTx"]
  | CoreResource.matchingRule => ["value", "id", "type", "cashAccount"]
  | CoreResource.membership => ["manage", "delete", "id", "type", "user", "space"]
  | CoreResource.message => ["content", "timestampMs", "id", "type", "author"]
  | CoreResource.messageThread => ["title", "id", "type", "transaction", "lastMessage"]
  | CoreResource.recurringTransaction =>
    ["algorithm", "description", "amountBaseUnits", "startTimeMs", "matchingRule",
     "recurrence", "id", "type", "cashAccount"]
  | CoreResource.space => ["name", "id", "type"]
  | CoreResource.split =>
    ["amountBaseUnits", "timestampMs", "id", "type", "transaction", "virtualAccount"]
  | CoreResource.user =>
    ["name", "createdMs", "id", "type", "defaultSpace", "emailAddresses"]
  | CoreResource.virtualAccount =>
    ["type", "name", "targetDateMs", "targetAmountBaseUnits", "balanceBaseUnits",
     "id", "cashAccount"]
  | CoreResource.transaction =>
    ["description", "timestampMs", "amountBaseUnits", "balanceBaseUnits", "serialNumber",
     "splits", "id", "type", "cashAccount", "expectedTx"]

/-- The TypeScript type of the `id` field of each `Api.Resource` variant in
src/src/Core.ts, when present: every variant declares `id: string` except
`EmailAddress` (lines 250-253), which has no `id` field. -/
def coreResourceIdType : CoreResource → Option String
  | CoreResource.emailAddress => none
  | _ => some "string"

/-- The literals admitted by the `type` field of each `Api.Resource` variant in
src/src/Core.ts (for `CashAccount` and `VirtualAccount` the `type` field comes
from the `Attributes` operand; every other variant pins a single Api-level
literal). -/
def coreResourceTypeLiterals : CoreResource → List String
  | CoreResource.cashAccount => ["debit-accounts", "credit-accounts"]
  | CoreResource.emailAddress => ["email-addresses"]
  | CoreResource.expectedTransaction => ["expected-transactions"]
  | CoreResource.matchingRule => ["matching-rules"]
  | CoreResource.membership => ["memberships"]
  | CoreResource.message => ["messsage"]
  | CoreResource.messageThread => ["message-threads"]
  | CoreResource.recurringTransaction => ["recurring-transactions"]
  | CoreResource.space => ["spaces"]
  | CoreResource.split => ["splits"]
  | CoreResource.user => ["users"]
  | CoreResource.virtualAccount =>
    ["income-accounts", "expense-accounts", "transfer-accounts", "default-accounts",
     "budget-accounts", "goal-accounts"]
  | CoreResource.transaction => ["transactions"]

/-- The field names of `Api.EmailAddress` in src/unnamed/part_004 lines
291-294: the same shape as in src/src/Core.ts, again without an `id` field. -/
def part004EmailAddressFields : List String := ["email", "verifiedMs", "type", "user"]

/-- C9: every variant of the `Api.Resource` union carries an `id: string`
field, except `EmailAddress`, which carries the `"email-addresses"` type
discriminator but no `id` field at all (in src/src/Core.ts and in
src/unnamed/part_004 alike), so no uniform `id` projection exists. -/
theorem resource_id_fields :
    (∀ k : CoreResource, k ≠ CoreResource.emailAddress →
        coreResourceIdType k = some "string" ∧ "id" ∈ coreResourceFields k) ∧
    coreResourceIdType CoreResource.emailAddress = none ∧
    "id" ∉ coreResourceFields CoreResource.emailAddress ∧
    "email-addresses" ∈ coreResourceTypeLiterals CoreResource.emailAddress ∧
    "id" ∉ part004EmailAddressFields := by
  refine ⟨?_, rfl, by decide, by decide, by decide⟩
  intro k hk
  cases k <;> first
    | exact absurd rfl hk
    | exact ⟨rfl, by decide⟩

theorem resource_id_fields_witness :
    coreResourceIdType CoreResource.space = some "string" ∧
    "id" ∈ coreResourceFields CoreResource.space :=
  resource_id_fields.1 CoreResource.space (by decide)

/-! ## Type discriminators across the versioned snapshots (C10) -/

/-- The type literals of each member of the `Api.Resource` union in
src/unnamed/part_000 (package version 1.1.0), keyed by the TypeScript type
name. -/
def part000ResourceTypeLiterals : List (String × List String) :=
  [("CashAccount", ["debit-accounts", "credit-accounts"]),
   ("CashTransaction", ["cash-transactions"]),
   ("EmailAddress", ["email-addresses"]),
   ("ExpectedTransaction", ["expected-transactions"]),
   ("MatchingRule", ["matching-rules"]),
   ("Membership", ["memberships"]),
   ("Message", ["messsage"]),
   ("MessageThread", ["message-threads"]),
   ("BankingProvider", ["banking-providers"]),
   ("RecurringTransaction",
    ["fixed-recurring-transactions", "adaptive-estimated-recurring-transactions",
     "adaptive-exact-recurring-transactions"]),
   ("Space", ["spaces"]),
   ("Split", ["splits"]),
   ("User", ["users"]),
   ("VirtualAccount",
    ["income-accounts", "expense-accounts", "transfer-accounts", "default-accounts",
     "budget-accounts", "goal-accounts"]),
   ("VirtualTransaction", ["virtual-transactions"])]

/-- The type literals of each member of the `Api.Resource` union in
src/unnamed/part_003, keyed by the TypeScript type name. -/
def part003ResourceTypeLiterals : List (String × List String) :=
  [("CashAccount", ["debit-accounts", "credit-accounts"]),
   ("EmailAddress", ["email-addresses"]),
   ("ExpectedTransaction", ["expected-transactions"]),
   ("MatchingRule", ["matching-rules"]),
   ("Membership", ["memberships"]),
   ("Message", ["messsage"]),
   ("MessageThread", ["message-threads"]),
   ("RecurringTransaction",
    ["fixed-recurring-transactions", "adaptive-estimated-recurring-transactions",
     "adaptive-exact-recurring-transactions"]),
   ("Space", ["spaces"]),
   ("Split", ["splits"]),
   ("User", ["users"]),
   ("VirtualAccount",
    ["income-accounts", "expense-accounts", "transfer-accounts", "default-accounts",
     "budget-accounts", "goal-accounts"]),
   ("Transaction", ["transactions"])]

/-- The type literals of each member of the `Api.Resource` union in
src/unnamed/part_004, keyed by the TypeScript type name. -/
def part004ResourceTypeLiterals : List (String × List String) :=
  [("CashAccount", ["debit-accounts", "credit-accounts"]),
   ("EmailAddress", ["email-addresses"]),
   ("ExpectedTransaction", ["expected-transactions"]),
   ("MatchingRule", ["matching-rules"]),
   ("Membership", ["memberships"]),
   ("Message", ["messsage"]),
   ("MessageThread", ["message-threads"]),
   ("RecurringTransaction", ["recurring-transactions"]),
   ("Space", ["spaces"]),
   ("Split", ["splits"]),
   ("User", ["users"]),
   ("VirtualAccount",
    ["income-accounts", "expense-accounts", "transfer-accounts", "default-accounts",
     "budget-accounts", "goal-accounts"]),
   ("VirtualAccountRelationship", ["virtual-account-relationships"]),
   ("Transaction", ["transactions"])]

/-- Whether a character is a lowercase ASCII letter or a hyphen. -/
def isKebabChar (c : Char) : Bool :=
  (97 ≤ c.toNat && c.toNat ≤ 122) || c.toNat == 45

/-- The plural kebab-case naming convention: lowercase letters and hyphens,
ending in the letter s (codepoint 115). -/
def isPluralKebab (s : String) : Bool :=
  (s.data.getLast?.map Char.toNat == some 115) && s.data.all isKebabChar

example : isPluralKebab "message-threads" = true := by decide
example : isPluralKebab "messsage" = false := by decide

/-- C10: in every versioned snapshot of the schema that declares the Message
resource (src/src/Core.ts, src/unnamed/part_000, src/unnamed/part_003,
src/unnamed/part_004), the type discriminator of the Message resource is the
literal "messsage", which does not satisfy the plural kebab-case convention,
while the type literals of every other resource in each snapshot do satisfy it. -/
theorem message_discriminator_messsage :
    coreResourceTypeLiterals CoreResource.message = ["messsage"] ∧
    List.lookup "Message" part000ResourceTypeLiterals = some ["messsage"] ∧
    List.lookup "Message" part003ResourceTypeLiterals = some ["messsage"] ∧
    List.lookup "Message" part004ResourceTypeLiterals = some ["messsage"] ∧
    isPluralKebab "messsage" = false ∧
    (∀ k : CoreResource, k ≠ CoreResource.message →
        (coreResourceTypeLiterals k).all isPluralKebab = true) ∧
    (part000ResourceTypeLiterals.all
        (fun p => p.1 == "Message" || p.2.all isPluralKebab)) = true ∧
    (part003ResourceTypeLiterals.all
        (fun p => p.1 == "Message" || p.2.all isPluralKebab)) = true ∧
    (part004ResourceTypeLiterals.all
        (fun p => p.1 == "Message" || p.2.all isPluralKebab)) = true := by
  refine ⟨rfl, by decide, by decide, by decide, by decide, ?_, by decide, by decide, by decide⟩
  intro k hk
  cases k <;> first
    | exact absurd rfl hk
    | decide

theorem message_discriminator_messsage_witness :
    (coreResourceTypeLiterals CoreResource.space).all isPluralKebab = true :=
  message_discriminator_messsage.2.2.2.2.2.1 CoreResource.space (by decide)
